import Mathlib

/-!
# Verification of the web-search tool (`src/core/tools/webSearchTool.ts`)

A shallow embedding of the web-search pipeline: the result-extraction loop,
the key-phrase and summary derivation, the effect trace of one invocation
(directory creation, approval gate, browser and page lifecycle, navigation,
artifact write), and the JSON artifact shape.  JavaScript numbers that can go
negative (`parseInt` results) are modelled as `Int`; `Array.prototype.slice`
and `String.prototype.split(/\s+/)` are modelled with their JavaScript
semantics, including negative end indices and empty boundary tokens.
-/

/-- One extracted search result (`WebSearchResult` in the source).  The three
optional fields are absent exactly when detail-page extraction failed. -/
structure WebSearchResult where
  title : String
  url : String
  snippet : String
  content : Option String
  codeSnippets : Option (List String)
  headings : Option (List String)
deriving DecidableEq

/-- The persisted artifact value (`ProcessedResults` in the source). -/
structure ProcessedResults where
  query : String
  domain : Option String
  results : List WebSearchResult
  keyPhrases : List String
  searchSummary : String
  timestamp : String
deriving DecidableEq

/-- `Array.prototype.join(sep)` on a list of strings. -/
def jsJoin (sep : String) : List String → String
  | [] => ""
  | [x] => x
  | x :: y :: xs => x ++ sep ++ jsJoin sep (y :: xs)

/-- Worker for `jsSplitWs`: `cur` is the reversed current token, `inWs` says
whether we are inside a whitespace run (whose token has been flushed). -/
def jsSplitWsAux : List Char → List Char → Bool → List String
  | [], cur, _ => [String.mk cur.reverse]
  | c :: cs, cur, inWs =>
    if c.isWhitespace then
      if inWs then jsSplitWsAux cs cur true
      else String.mk cur.reverse :: jsSplitWsAux cs [] true
    else jsSplitWsAux cs (c :: cur) false

/-- `String.prototype.split(/\s+/)`: split at maximal whitespace runs.  A
leading (resp. trailing) whitespace run yields an empty first (resp. last)
token, and the empty string splits to `[""]`, as in JavaScript. -/
def jsSplitWs (s : String) : List String :=
  jsSplitWsAux s.data [] false

/-- Clamp the end argument of `Array.prototype.slice`: a negative index
counts from the end of the array. -/
def jsSliceEnd (len : Nat) (e : Int) : Nat :=
  if e < 0 then ((len : Int) + e).toNat else min e.toNat len

/-- `arr.slice(s, e)` for a natural start index and a possibly negative
end index, as in the source's `words.slice(i, i + windowSize)`. -/
def jsSlice (l : List String) (s : Nat) (e : Int) : List String :=
  (l.take (jsSliceEnd l.length e)).drop (min s l.length)

/-- The joined window candidates produced by the loop
`for (let i = 0; i < words.length - windowSize; i++)` in
`extractKeyPhrases`: one candidate per iteration, in loop order. -/
def windowPhrases (words : List String) (windowSize : Int) : List String :=
  (List.range ((((words.length : Int)) - windowSize).toNat)).map
    (fun i => jsJoin " " (jsSlice words i ((i : Int) + windowSize)))

/-- The length filter `phrase.length > 30 && phrase.length < 150`. -/
def phraseOk (p : String) : Bool :=
  decide (30 < p.length) && decide (p.length < 150)

/-- Insertion into the `Set` of phrases: insertion order is kept and
duplicates collapse, as for a JavaScript `Set`. -/
def insertDistinct (acc : List String) (p : String) : List String :=
  if p ∈ acc then acc else acc ++ [p]

/-- Body of the inner loop of `extractKeyPhrases`: filter by length, then
add to the set. -/
def keyPhraseStep (acc : List String) (p : String) : List String :=
  if phraseOk p then insertDistinct acc p else acc

/-- Body of the outer loop of `extractKeyPhrases`: results with absent or
empty `content` are skipped (`if (!result.content) continue`, and the empty
string is falsy in JavaScript). -/
def resultStep (windowSize : Int) (acc : List String) (r : WebSearchResult) :
    List String :=
  match r.content with
  | none => acc
  | some c =>
    if c = "" then acc
    else (windowPhrases (jsSplitWs c) windowSize).foldl keyPhraseStep acc

/-- `extractKeyPhrases(results, windowSize)` from the source:
accumulate length-filtered sliding-window phrases into an insertion-ordered
set across all results, then `Array.from(phrases).slice(0, 5)`. -/
def extractKeyPhrases (results : List WebSearchResult) (windowSize : Int) :
    List String :=
  (results.foldl (resultStep windowSize) []).take 5

/-- The filter `r.headings && r.headings.length > 0` from
`generateSearchSummary` (an absent headings field is falsy; a present empty
array fails the length test). -/
def hasHeadings (r : WebSearchResult) : Bool :=
  match r.headings with
  | some hs => decide (0 < hs.length)
  | none => false

/-- `generateSearchSummary(results)` from the source: `summary || fallback`
returns the fallback exactly when the joined summary is the empty string. -/
def generateSearchSummary (results : List WebSearchResult) : String :=
  let summary := jsJoin "\n"
    ((results.filter hasHeadings).map (fun r => jsJoin " > " (r.headings.getD [])))
  if summary = "" then "No structured summary available" else summary

/-- The anchor element of a listing candidate (`result.$("h2 a")`):
`textContent` models `el.textContent || ""` (so a DOM `null` is already the
empty string) and `href` models `el.href`. -/
structure TitleElem where
  textContent : String
  href : String
deriving DecidableEq

/-- The snippet element of a listing candidate (`result.$(".b_caption p")`). -/
structure SnippetElem where
  textContent : String
deriving DecidableEq

/-- Outcome of the detail-page visit for one candidate.  `ok` carries the
three `contentPage.evaluate` results (`codeSnippets` and `headings` before
their `.filter(Boolean)`); `fail` is any throw inside the per-candidate
`try` (timeout, navigation error, detached element). -/
inductive DetailOutcome where
  | ok (content : String) (rawCode : List String) (rawHeadings : List String)
  | fail
deriving DecidableEq

/-- One entry of the search-results listing (`li.b_algo`): its two optional
sub-elements and the behaviour of its detail-page visit. -/
structure Candidate where
  titleElem : Option TitleElem
  snippetElem : Option SnippetElem
  detail : DetailOutcome
deriving DecidableEq

/-- The result record pushed for a surviving candidate: all six fields on a
successful detail visit (with `.filter(Boolean)` dropping empty strings from
code snippets and headings), only title/url/snippet in the `catch` branch. -/
def mkResult (te : TitleElem) (se : SnippetElem) : DetailOutcome → WebSearchResult
  | .ok content rawCode rawHeadings =>
    { title := te.textContent, url := te.href, snippet := se.textContent,
      content := some content,
      codeSnippets := some (rawCode.filter (fun s => s ≠ "")),
      headings := some (rawHeadings.filter (fun s => s ≠ "")) }
  | .fail =>
    { title := te.textContent, url := te.href, snippet := se.textContent,
      content := none, codeSnippets := none, headings := none }

/-- What one loop iteration pushes: `none` when the guard
`if (titleElement && snippetElement)` fails. -/
def candidateResult (c : Candidate) : Option WebSearchResult :=
  match c.titleElem, c.snippetElem with
  | some te, some se => some (mkResult te se c.detail)
  | _, _ => none

/-- `Math.min(searchResults.length, maxResults)` as a loop iteration count
(`maxResults` comes from `parseInt` and may be negative). -/
def jsMin (len : Nat) (m : Int) : Nat :=
  (min (len : Int) m).toNat

/-- The result-collection loop, iteration by iteration: `n` iterations
remain, each examines the next candidate and pushes at most one result. -/
def searchLoop : List Candidate → Nat → List WebSearchResult
  | _, 0 => []
  | [], _ + 1 => []
  | c :: cs, n + 1 =>
    match candidateResult c with
    | some r => r :: searchLoop cs n
    | none => searchLoop cs n

/-- The full extraction loop
`for (let i = 0; i < Math.min(searchResults.length, maxResults); i++)`. -/
def collectResults (cands : List Candidate) (maxResults : Int) :
    List WebSearchResult :=
  searchLoop cands (jsMin cands.length maxResults)

/-- Hex digit for percent-encoding (uppercase, as `encodeURIComponent`). -/
def hexDigit (n : Nat) : Char :=
  if n < 10 then Char.ofNat (48 + n) else Char.ofNat (55 + n)

/-- UTF-8 bytes of a code point, as values below 256. -/
def utf8Bytes (n : Nat) : List Nat :=
  if n < 128 then [n]
  else if n < 2048 then [192 + n / 64, 128 + n % 64]
  else if n < 65536 then [224 + n / 4096, 128 + (n / 64) % 64, 128 + n % 64]
  else [240 + n / 262144, 128 + (n / 4096) % 64, 128 + (n / 64) % 64, 128 + n % 64]

/-- `%XY` for one byte. -/
def percentByte (b : Nat) : String :=
  String.mk ['%', hexDigit (b / 16), hexDigit (b % 16)]

/-- The characters `encodeURIComponent` leaves unescaped:
`A-Z a-z 0-9 - _ . ! ~ * ' ( )`. -/
def uriUnreserved (c : Char) : Bool :=
  c.isAlpha || c.isDigit || c == '-' || c == '_' || c == '.' || c == '!' ||
    c == '~' || c == '*' || c == Char.ofNat 39 || c == '(' || c == ')'

/-- `encodeURIComponent(s)`: unreserved characters pass through, all others
are percent-encoded byte by byte in UTF-8. -/
def encodeURIComponent (s : String) : String :=
  String.join (s.data.map (fun c =>
    if uriUnreserved c then String.mk [c]
    else String.join ((utf8Bytes c.toNat).map percentByte)))

/-- The Bing search URL built by the orchestrator: with a domain the query
is scoped with a `site:` restriction. -/
def searchUrl (query : String) (domain : Option String) : String :=
  match domain with
  | some d => "https://www.bing.com/search?q=site:" ++ d ++ "+" ++ encodeURIComponent query
  | none => "https://www.bing.com/search?q=" ++ encodeURIComponent query

/-- A path is absolute when its first character is a slash. -/
def isAbsolute (p : String) : Bool :=
  match p.data with
  | [] => false
  | c :: _ => c == '/'

/-- `path.resolve(cline.cwd, chunkDir)`, modelled without `.`/`..`
normalization: an absolute path wins, otherwise it is joined onto `cwd`. -/
def pathResolve (cwd : String) (p : String) : String :=
  if isAbsolute p then p else cwd ++ "/" ++ p

/-- The observable actions of one invocation, in program order.  `navigate`
and `navigateContent` are the network calls; `mkdirDir` and `writeArtifact`
are the filesystem writes. -/
inductive Effect where
  | mkdirDir (dir : String)
  | browserLaunch
  | openSearchPage
  | navigate (url : String)
  | openContentPage (url : String)
  | navigateContent (url : String)
  | closeContentPage (url : String)
  | writeArtifact (p : String) (content : ProcessedResults)
  | pushResult
  | pushMissingParam
  | reportError
  | closeBrowser
deriving DecidableEq

/-- The whole input of one `webSearchTool` invocation: the parsed request
parameters (`maxResults` and `slidingWindowSize` are `parseInt` results,
hence `Int`), the approval decision, the behaviour of the external world
(browser launch, search-page navigation, listing candidates) and the clock
reading used for the timestamp. -/
structure RunInput where
  query : String
  domain : Option String
  maxResults : Int
  slidingWindowSize : Int
  chunkDir : String
  cwd : String
  approved : Bool
  launchOk : Bool
  searchNavOk : Bool
  candidates : List Candidate
  timestamp : String
deriving DecidableEq

/-- The results directory of a run. -/
def resultsDirOf (inp : RunInput) : String :=
  pathResolve inp.cwd inp.chunkDir

/-- `path.join(resultsDir, "search-" + timestamp + ".json")`. -/
def artifactPath (inp : RunInput) : String :=
  resultsDirOf inp ++ "/search-" ++ inp.timestamp ++ ".json"

/-- The `ProcessedResults` value a completed run assembles. -/
def runArtifact (inp : RunInput) : ProcessedResults :=
  let results := collectResults inp.candidates inp.maxResults
  { query := inp.query, domain := inp.domain, results := results,
    keyPhrases := extractKeyPhrases results inp.slidingWindowSize,
    searchSummary := generateSearchSummary results,
    timestamp := inp.timestamp }

/-- The page effects of one loop iteration.  A candidate failing the
element guard does nothing; a surviving candidate opens a content page and
navigates to it, and the page is closed only on the success path — the
`catch` branch does not close it. -/
def candidateEffects (c : Candidate) : List Effect :=
  match c.titleElem, c.snippetElem with
  | some te, some _ =>
    match c.detail with
    | .ok _ _ _ =>
      [.openContentPage te.href, .navigateContent te.href, .closeContentPage te.href]
    | .fail => [.openContentPage te.href, .navigateContent te.href]
  | _, _ => []

/-- The effect trace of one `webSearchTool` invocation, following the
source's control flow: validate the query; create the results directory;
ask approval (returning if declined); launch the browser (the `finally`
closes it only if it was assigned); open and navigate the search page; run
the candidate loop; write the artifact and push the report.  Any throw
after a successful launch reaches the top-level `catch` and then the
`finally`. -/
def webSearchRun (inp : RunInput) : List Effect :=
  if inp.query = "" then [.pushMissingParam]
  else
    let pre := [Effect.mkdirDir (resultsDirOf inp)]
    if !inp.approved then pre
    else if !inp.launchOk then pre ++ [.reportError]
    else
      let url := searchUrl inp.query inp.domain
      let body :=
        if !inp.searchNavOk then [Effect.navigate url, .reportError]
        else
          let loopCands := inp.candidates.take (jsMin inp.candidates.length inp.maxResults)
          [Effect.navigate url]
            ++ (loopCands.map candidateEffects).flatten
            ++ [Effect.writeArtifact (artifactPath inp) (runArtifact inp), .pushResult]
      pre ++ [.browserLaunch, .openSearchPage] ++ body ++ [.closeBrowser]

/-- Effects that write to the filesystem. -/
def isFsWrite : Effect → Bool
  | .mkdirDir _ => true
  | .writeArtifact _ _ => true
  | _ => false

/-- Effects that perform a network call. -/
def isNetwork : Effect → Bool
  | .navigate _ => true
  | .navigateContent _ => true
  | _ => false

/-- Number of content pages opened in a trace. -/
def countOpens (es : List Effect) : Nat :=
  es.countP (fun e => match e with | .openContentPage _ => true | _ => false)

/-- Number of content pages closed in a trace. -/
def countCloses (es : List Effect) : Nat :=
  es.countP (fun e => match e with | .closeContentPage _ => true | _ => false)

/-- A candidate that passes the element guard. -/
def survives (c : Candidate) : Bool :=
  (candidateResult c).isSome

/-- A candidate whose detail visit succeeds. -/
def detailOk (c : Candidate) : Bool :=
  match c.detail with
  | .ok _ _ _ => true
  | .fail => false

/-- JSON values as produced by `JSON.stringify` on the artifact: only
strings, arrays and objects occur (key order is the construction order). -/
inductive Json where
  | str : String → Json
  | arr : List Json → Json
  | obj : List (String × Json) → Json

/-- Field access on a parsed JSON object. -/
def lookupField : List (String × Json) → String → Option Json
  | [], _ => none
  | (k2, v) :: rest, k => if k2 = k then some v else lookupField rest k

/-- `JSON.stringify` on one result record: a field whose value is
`undefined` is omitted from the serialized object. -/
def encodeResult (r : WebSearchResult) : Json :=
  .obj ([("title", Json.str r.title), ("url", Json.str r.url),
         ("snippet", Json.str r.snippet)]
    ++ (match r.content with
        | some c => [("content", Json.str c)]
        | none => [])
    ++ (match r.codeSnippets with
        | some cs => [("codeSnippets", Json.arr (cs.map Json.str))]
        | none => [])
    ++ (match r.headings with
        | some hs => [("headings", Json.arr (hs.map Json.str))]
        | none => []))

/-- `JSON.stringify` on the whole artifact: `domain` is omitted when
`undefined`, the other five fields are always present. -/
def encodeProcessed (p : ProcessedResults) : Json :=
  .obj ([("query", Json.str p.query)]
    ++ (match p.domain with
        | some d => [("domain", Json.str d)]
        | none => [])
    ++ [("results", Json.arr (p.results.map encodeResult)),
        ("keyPhrases", Json.arr (p.keyPhrases.map Json.str)),
        ("searchSummary", Json.str p.searchSummary),
        ("timestamp", Json.str p.timestamp)])

/-- Read a JSON string. -/
def decodeStr : Json → Option String
  | .str s => some s
  | _ => none

/-- Decode every element of a JSON array, failing if any element fails. -/
def decodeList (f : Json → Option α) : List Json → Option (List α)
  | [] => some []
  | j :: js => (f j).bind (fun x => (decodeList f js).map (fun xs => x :: xs))

/-- Read a JSON array of strings. -/
def decodeStrList : Json → Option (List String)
  | .arr xs => decodeList decodeStr xs
  | _ => none

/-- Read an optional string field of a parsed object. -/
def decodeOptStrField (fs : List (String × Json)) (k : String) :
    Option (Option String) :=
  match lookupField fs k with
  | none => some none
  | some v => (decodeStr v).map some

/-- Read an optional string-array field of a parsed object. -/
def decodeOptStrListField (fs : List (String × Json)) (k : String) :
    Option (Option (List String)) :=
  match lookupField fs k with
  | none => some none
  | some v => (decodeStrList v).map some

/-- Read one result record back from parsed JSON. -/
def decodeResult : Json → Option WebSearchResult
  | .obj fs => do
    let title ← (lookupField fs "title").bind decodeStr
    let url ← (lookupField fs "url").bind decodeStr
    let snippet ← (lookupField fs "snippet").bind decodeStr
    let content ← decodeOptStrField fs "content"
    let codeSnippets ← decodeOptStrListField fs "codeSnippets"
    let headings ← decodeOptStrListField fs "headings"
    pure { title := title, url := url, snippet := snippet, content := content,
           codeSnippets := codeSnippets, headings := headings }
  | _ => none

/-- Read the whole artifact back from parsed JSON. -/
def decodeProcessed : Json → Option ProcessedResults
  | .obj fs => do
    let query ← (lookupField fs "query").bind decodeStr
    let domain ← decodeOptStrField fs "domain"
    let results ← (lookupField fs "results").bind (fun j =>
      match j with
      | .arr xs => decodeList decodeResult xs
      | _ => none)
    let keyPhrases ← (lookupField fs "keyPhrases").bind decodeStrList
    let searchSummary ← (lookupField fs "searchSummary").bind decodeStr
    let timestamp ← (lookupField fs "timestamp").bind decodeStr
    pure { query := query, domain := domain, results := results,
           keyPhrases := keyPhrases, searchSummary := searchSummary,
           timestamp := timestamp }
  | _ => none

/-- Stated from the claim for comparison with `collectResults` (C2): a
candidate missing title or snippet would be skipped without consuming a
`maxResults` slot, so up to `maxResults` surviving candidates would be
processed. -/
def collectResultsClaimed (cands : List Candidate) (maxResults : Int) :
    List WebSearchResult :=
  (cands.filterMap candidateResult).take maxResults.toNat

/-- Stated from the claim for comparison with `windowPhrases` (C4): the
contiguous `windowSize`-word windows at every start position across the
token sequence, i.e. all `len - windowSize + 1` of them. -/
def windowPhrasesClaimed (words : List String) (windowSize : Int) :
    List String :=
  (List.range (((words.length : Int) - windowSize + 1).toNat)).map
    (fun i => jsJoin " " ((words.drop i).take windowSize.toNat))

/-- The filtered candidate phrases one result contributes, in loop order. -/
def resultPhrases (windowSize : Int) (r : WebSearchResult) : List String :=
  match r.content with
  | none => []
  | some c =>
    if c = "" then []
    else (windowPhrases (jsSplitWs c) windowSize).filter phraseOk

/-- The per-result filtered candidate-phrase stream, in discovery order:
used to state that the returned key phrases are a subsequence of the
phrases the loops examine and keep. -/
def phraseStream (results : List WebSearchResult) (windowSize : Int) :
    List String :=
  (results.map (resultPhrases windowSize)).flatten

/-- All texts of the present listing elements of a candidate are
non-empty. -/
def candTextsNonempty (c : Candidate) : Prop :=
  (∀ te, c.titleElem = some te → te.textContent ≠ "" ∧ te.href ≠ "") ∧
  (∀ se, c.snippetElem = some se → se.textContent ≠ "")

/-- A small sanity value used in several concrete evaluations below. -/
def sampleResult (c : Option String) (hs : Option (List String)) : WebSearchResult :=
  { title := "t", url := "u", snippet := "s",
    content := c, codeSnippets := none, headings := hs }

/-- A baseline invocation used for concrete evaluations: a short query, the
default parameters, approval granted and a cooperative environment. -/
def baseInput : RunInput :=
  { query := "q", domain := none, maxResults := 5, slidingWindowSize := 100,
    chunkDir := "./web-search-results", cwd := "/home/user/project",
    approved := true, launchOk := true, searchNavOk := true,
    candidates := [], timestamp := "2024-01-01T00:00:00.000Z" }

/-- The baseline invocation with approval declined. -/
def declinedInput : RunInput :=
  { baseInput with approved := false }

/-- A surviving candidate whose detail-page visit fails. -/
def failCandidate : Candidate :=
  ⟨some ⟨"T", "https://a.example/page"⟩, some ⟨"S"⟩, .fail⟩

/-- The baseline invocation with a single surviving candidate whose detail
visit fails. -/
def failDetailInput : RunInput :=
  { baseInput with candidates := [failCandidate] }

/-- A listing candidate with no snippet element. -/
def missingSnippetCand : Candidate :=
  ⟨some ⟨"T0", "https://a.example/zero"⟩, none, .fail⟩

/-- A surviving candidate used to show skipped entries consume slots. -/
def goodCand : Candidate :=
  ⟨some ⟨"T1", "https://a.example/one"⟩, some ⟨"S1"⟩, .fail⟩

/-- The baseline invocation with a surviving candidate whose listing title
text is empty. -/
def emptyTitleInput : RunInput :=
  { baseInput with candidates :=
      [⟨some ⟨"", "https://a.example/t"⟩, some ⟨"S"⟩, .fail⟩] }

/-- The baseline invocation with one fully successful candidate. -/
def happyInput : RunInput :=
  { baseInput with candidates :=
      [⟨some ⟨"Title", "https://a.example/ok"⟩, some ⟨"Snippet"⟩,
        .ok "some content here" ["code"] ["Head"]⟩] }

/-- A 35-character word: a phrase of this single word passes the length
filter. -/
def longWord : String := "bbbbbbbbbbbbbbbbbbbbbbbbbbbbbbbbbbb"

/-- A result with five words of content whose first four words join to a
43-character phrase. -/
def negWindowContent : String :=
  "aaaaaaaaaa bbbbbbbbbb cccccccccc dddddddddd eeee"

/-- A result with non-empty, non-blank headings. -/
def headedResult : WebSearchResult := sampleResult none (some ["Alpha", "Beta"])

theorem searchLoop_eq (cands : List Candidate) :
    ∀ n, searchLoop cands n = (cands.take n).filterMap candidateResult := by
  induction cands with
  | nil => intro n; cases n <;> simp [searchLoop]
  | cons c cs ih =>
    intro n
    cases n with
    | zero => simp [searchLoop]
    | succ n =>
      simp only [searchLoop, List.take_succ_cons, List.filterMap_cons]
      cases h : candidateResult c <;> simp [h, ih]

theorem take_min_length (l : List String) (m : Nat) :
    l.take (min m l.length) = l.take m := by
  rcases le_total m l.length with h | h
  · rw [min_eq_left h]
  · rw [min_eq_right h, List.take_length, List.take_of_length_le h]

theorem jsSlice_nat (l : List String) (i n : Nat) :
    jsSlice l i ((i : Int) + (n : Int)) = (l.drop i).take n := by
  unfold jsSlice jsSliceEnd
  have h0 : ¬ ((i : Int) + (n : Int) < 0) := by omega
  rw [if_neg h0]
  have h1 : ((i : Int) + (n : Int)).toNat = i + n := by omega
  rw [h1, take_min_length]
  rcases le_total i l.length with h | h
  · rw [min_eq_left h, List.drop_take, Nat.add_sub_cancel_left]
  · rw [min_eq_right h]
    rw [List.drop_eq_nil_of_le (by simp), List.drop_eq_nil_of_le h]
    simp

theorem windowPhrases_pos (words : List String) (ws : Int) (hws : 0 < ws) :
    windowPhrases words ws =
      (List.range (words.length - ws.toNat)).map
        (fun i => jsJoin " " ((words.drop i).take ws.toNat)) := by
  unfold windowPhrases
  have hlen : (((words.length : Int)) - ws).toNat = words.length - ws.toNat := by
    omega
  rw [hlen]
  apply List.map_congr_left
  intro i _
  have h2 : (i : Int) + ws = (i : Int) + (ws.toNat : Int) := by omega
  rw [h2, jsSlice_nat]

theorem windowPhrases_ge_len (words : List String) (ws : Int)
    (h : (words.length : Int) ≤ ws) : windowPhrases words ws = [] := by
  unfold windowPhrases
  have : (((words.length : Int)) - ws).toNat = 0 := by omega
  rw [this]
  rfl

theorem length_pos_of_ne_empty (s : String) (h : s ≠ "") : 0 < s.length := by
  rcases s with ⟨data⟩
  cases data with
  | nil => exact absurd rfl h
  | cons c cs => simp [String.length]

theorem ne_empty_of_length_pos (s : String) (h : 0 < s.length) : s ≠ "" := by
  intro he
  rw [he] at h
  simp at h

theorem jsJoin_cons_cons (sep x y : String) (xs : List String) :
    jsJoin sep (x :: y :: xs) = x ++ sep ++ jsJoin sep (y :: xs) := rfl

theorem jsJoin_length_ge_of_mem (sep : String) (x : String) :
    ∀ l, x ∈ l → x.length ≤ (jsJoin sep l).length := by
  intro l
  induction l with
  | nil => intro h; cases h
  | cons a t ih =>
    intro hmem
    cases t with
    | nil =>
      rcases List.mem_singleton.mp hmem with rfl
      exact le_refl _
    | cons b t2 =>
      rw [jsJoin_cons_cons, String.length_append, String.length_append]
      rcases List.mem_cons.mp hmem with rfl | hmem2
      · omega
      · have := ih hmem2
        omega

theorem foldl_keyPhraseStep_spec (ps : List String) :
    ∀ acc, acc.Nodup →
      ∃ t, ps.foldl keyPhraseStep acc = acc ++ t ∧ (acc ++ t).Nodup ∧
        List.Sublist t (ps.filter phraseOk) := by
  induction ps with
  | nil =>
    intro acc h
    exact ⟨[], by simp, by simpa using h, by simp⟩
  | cons p ps ih =>
    intro acc h
    rw [List.foldl_cons]
    by_cases hp : phraseOk p
    · by_cases hmem : p ∈ acc
      · obtain ⟨t, ht1, ht2, ht3⟩ := ih acc h
        refine ⟨t, ?_, ht2, ?_⟩
        · rw [show keyPhraseStep acc p = acc by
            simp [keyPhraseStep, hp, insertDistinct, hmem]]
          exact ht1
        · rw [List.filter_cons_of_pos hp]
          exact ht3.cons _
      · have hstep : keyPhraseStep acc p = acc ++ [p] := by
          simp [keyPhraseStep, hp, insertDistinct, hmem]
        have hnd : (acc ++ [p]).Nodup := by
          simp [List.nodup_append, h, hmem]
        obtain ⟨t, ht1, ht2, ht3⟩ := ih (acc ++ [p]) hnd
        refine ⟨p :: t, ?_, ?_, ?_⟩
        · rw [hstep, ht1, List.append_assoc]
          rfl
        · rw [List.append_assoc] at ht2
          simpa using ht2
        · rw [List.filter_cons_of_pos hp]
          exact ht3.cons₂ _
    · obtain ⟨t, ht1, ht2, ht3⟩ := ih acc h
      refine ⟨t, ?_, ht2, ?_⟩
      · rw [show keyPhraseStep acc p = acc by simp [keyPhraseStep, hp]]
        exact ht1
      · rw [List.filter_cons_of_neg hp]
        exact ht3

theorem foldl_resultStep_spec (ws : Int) (rs : List WebSearchResult) :
    ∀ acc, acc.Nodup →
      ∃ t, rs.foldl (resultStep ws) acc = acc ++ t ∧ (acc ++ t).Nodup ∧
        List.Sublist t (phraseStream rs ws) := by
  induction rs with
  | nil =>
    intro acc h
    exact ⟨[], by simp, by simpa using h, by simp [phraseStream]⟩
  | cons r rs ih =>
    intro acc h
    rw [List.foldl_cons]
    have hstream : phraseStream (r :: rs) ws =
        resultPhrases ws r ++ phraseStream rs ws := by
      simp [phraseStream]
    have hstep : ∃ t1, resultStep ws acc r = acc ++ t1 ∧ (acc ++ t1).Nodup ∧
        List.Sublist t1 (resultPhrases ws r) := by
      match hc : r.content with
      | none =>
        exact ⟨[], by simp [resultStep, hc], by simpa using h,
          by simp [resultPhrases, hc]⟩
      | some c =>
        by_cases hce : c = ""
        · exact ⟨[], by simp [resultStep, hc, hce], by simpa using h,
            by simp [resultPhrases, hc, hce]⟩
        · obtain ⟨t1, ht1, ht2, ht3⟩ :=
            foldl_keyPhraseStep_spec (windowPhrases (jsSplitWs c) ws) acc h
          refine ⟨t1, by simp only [resultStep, hc, if_neg hce]; exact ht1,
            ht2, ?_⟩
          simpa [resultPhrases, hc, hce] using ht3
    obtain ⟨t1, h1, h2, h3⟩ := hstep
    obtain ⟨t2, h4, h5, h6⟩ := ih (acc ++ t1) h2
    refine ⟨t1 ++ t2, ?_, ?_, ?_⟩
    · rw [h1, h4, List.append_assoc]
    · rw [← List.append_assoc]
      exact h5
    · rw [hstream]
      exact h3.append h6

theorem phraseOk_of_mem_phraseStream (ws : Int) (rs : List WebSearchResult)
    (p : String) (hp : p ∈ phraseStream rs ws) : phraseOk p = true := by
  unfold phraseStream at hp
  rw [List.mem_flatten] at hp
  obtain ⟨l, hl, hpl⟩ := hp
  rw [List.mem_map] at hl
  obtain ⟨r, _, rfl⟩ := hl
  match hc : r.content with
  | none => simp [resultPhrases, hc] at hpl
  | some c =>
    by_cases hce : c = ""
    · simp [resultPhrases, hc, hce] at hpl
    · rw [show resultPhrases ws r =
          (windowPhrases (jsSplitWs c) ws).filter phraseOk by
        simp [resultPhrases, hc, hce]] at hpl
      exact List.of_mem_filter hpl

theorem windowPhrases_zero_all_empty (words : List String) :
    ∀ p ∈ windowPhrases words 0, p = "" := by
  intro p hp
  unfold windowPhrases at hp
  rw [List.mem_map] at hp
  obtain ⟨i, _, rfl⟩ := hp
  have : jsSlice words i ((i : Int) + 0) = [] := by
    unfold jsSlice jsSliceEnd
    rw [if_neg (by omega)]
    have h1 : ((i : Int) + 0).toNat = i := by omega
    rw [h1]
    apply List.drop_eq_nil_of_le
    simp
  rw [this]
  rfl

theorem phraseOk_empty_false : phraseOk "" = false := by decide

theorem foldl_keyPhraseStep_all_empty (ps : List String)
    (hps : ∀ p ∈ ps, p = "") : ∀ acc, ps.foldl keyPhraseStep acc = acc := by
  induction ps with
  | nil => intro acc; rfl
  | cons p ps ih =>
    intro acc
    have hp : p = "" := hps p (List.mem_cons_self p ps)
    rw [List.foldl_cons,
      show keyPhraseStep acc p = acc by
        rw [hp, keyPhraseStep, phraseOk_empty_false]; rfl]
    exact ih (fun q hq => hps q (List.mem_cons_of_mem p hq)) acc

theorem resultStep_zero (acc : List String) (r : WebSearchResult) :
    resultStep 0 acc r = acc := by
  match hc : r.content with
  | none => simp [resultStep, hc]
  | some c =>
    by_cases hce : c = ""
    · simp [resultStep, hc, hce]
    · rw [show resultStep 0 acc r =
          (windowPhrases (jsSplitWs c) 0).foldl keyPhraseStep acc by
        simp [resultStep, hc, hce]]
      exact foldl_keyPhraseStep_all_empty _
        (windowPhrases_zero_all_empty (jsSplitWs c)) acc

theorem countP_flatten_candidates (p : Effect → Bool) (q : Candidate → Bool)
    (hpq : ∀ c, (candidateEffects c).countP p = if q c then 1 else 0) :
    ∀ cands : List Candidate,
      ((cands.map candidateEffects).flatten).countP p =
        (cands.filter q).length := by
  intro cands
  induction cands with
  | nil => rfl
  | cons c cs ih =>
    rw [List.map_cons, List.flatten_cons, List.countP_append, ih, hpq c]
    by_cases hq : q c
    · rw [if_pos hq, List.filter_cons_of_pos hq, List.length_cons]
      omega
    · rw [if_neg hq, List.filter_cons_of_neg hq]
      omega

theorem countOpens_candidate (c : Candidate) :
    (candidateEffects c).countP
        (fun e => match e with | .openContentPage _ => true | _ => false) =
      if survives c then 1 else 0 := by
  rcases c with ⟨te, se, d⟩
  cases te <;> cases se <;> cases d <;>
    simp [candidateEffects, survives, candidateResult, List.countP_cons,
      List.countP_nil]

theorem countCloses_candidate (c : Candidate) :
    (candidateEffects c).countP
        (fun e => match e with | .closeContentPage _ => true | _ => false) =
      if survives c && detailOk c then 1 else 0 := by
  rcases c with ⟨te, se, d⟩
  cases te <;> cases se <;> cases d <;>
    simp [candidateEffects, survives, candidateResult, detailOk,
      List.countP_cons, List.countP_nil]

theorem webSearchRun_happy (inp : RunInput) (hq : inp.query ≠ "")
    (ha : inp.approved = true) (hl : inp.launchOk = true)
    (hn : inp.searchNavOk = true) :
    webSearchRun inp =
      [Effect.mkdirDir (resultsDirOf inp), .browserLaunch, .openSearchPage,
       .navigate (searchUrl inp.query inp.domain)]
      ++ ((inp.candidates.take (jsMin inp.candidates.length inp.maxResults)).map
            candidateEffects).flatten
      ++ [Effect.writeArtifact (artifactPath inp) (runArtifact inp),
          .pushResult, .closeBrowser] := by
  simp [webSearchRun, hq, ha, hl, hn]

theorem decodeList_decodeStr (xs : List String) :
    decodeList decodeStr (xs.map Json.str) = some xs := by
  induction xs with
  | nil => rfl
  | cons x xs ih => simp [decodeList, decodeStr, ih]

theorem decodeResult_encodeResult (r : WebSearchResult) :
    decodeResult (encodeResult r) = some r := by
  rcases r with ⟨t, u, s, c, cs, hs⟩
  rcases c with _ | c <;> rcases cs with _ | cs <;> rcases hs with _ | hs <;>
    simp [encodeResult, decodeResult, lookupField, decodeStr, decodeStrList,
      decodeOptStrField, decodeOptStrListField, decodeList_decodeStr]

theorem decodeList_decodeResult (rs : List WebSearchResult) :
    decodeList decodeResult (rs.map encodeResult) = some rs := by
  induction rs with
  | nil => rfl
  | cons r rs ih => simp [decodeList, decodeResult_encodeResult, ih]

theorem hasHeadings_iff (r : WebSearchResult) :
    hasHeadings r = true ↔ ∃ hs, r.headings = some hs ∧ 0 < hs.length := by
  rcases r with ⟨t, u, s, c, cs, hs⟩
  cases hs with
  | none => simp [hasHeadings]
  | some l => simp [hasHeadings]

/-- C2 counterexample: with `maxResults = 1` and a first listing candidate
missing its snippet element, the loop spends its only iteration on the
skipped candidate and processes nothing, although the listing contains one
surviving candidate — the claimed behaviour would process it. -/
theorem C2_skip_consumes_slot_cex :
    collectResults [missingSnippetCand, goodCand] 1 = [] ∧
      collectResultsClaimed [missingSnippetCand, goodCand] 1 =
        [mkResult ⟨"T1", "https://a.example/one"⟩ ⟨"S1"⟩ .fail] := by
  exact ⟨by decide, by decide⟩

/-- C2 (amended): a candidate missing its title or snippet element is
skipped (nothing is pushed) but still consumes one of the
`min(listing length, maxResults)` loop iterations: the assembled results
are exactly the surviving candidates among the first
`min(listing length, maxResults)` listing entries, in listing order, and
the run is not aborted; fewer than `maxResults` results may be produced
even when the listing holds more surviving candidates further on. -/
theorem C2_loop_characterization (cands : List Candidate) (maxResults : Int) :
    collectResults cands maxResults =
      (cands.take (jsMin cands.length maxResults)).filterMap candidateResult :=
  searchLoop_eq cands _

/-- C4 counterexample: for tokens `["a", longWord]` and `windowSize = 1`
the code examines only the window at start position 0 (the loop bound is
`words.length - windowSize`, excluding the final start position), so the
35-character final window is never examined and `extractKeyPhrases`
returns nothing, while the claimed windows include it. -/
theorem C4_last_window_missed_cex :
    windowPhrases (jsSplitWs ("a " ++ longWord)) 1 = ["a"] ∧
      windowPhrasesClaimed (jsSplitWs ("a " ++ longWord)) 1 = ["a", longWord] ∧
      extractKeyPhrases [sampleResult (some ("a " ++ longWord)) none] 1 = [] := by
  exact ⟨by decide, by decide, by decide⟩

/-- C4 (amended): for non-empty content and positive `windowSize` the
candidate phrases are the space-joined `windowSize`-word windows at start
positions `0 .. tokenCount - windowSize - 1` only — the window at the last
admissible start position `tokenCount - windowSize` is never examined; and
when `windowSize ≥ tokenCount` the result contributes no phrases. -/
theorem C4_window_positions (c : String) (ws : Int) (hws : 0 < ws)
    (hc : c ≠ "") :
    windowPhrases (jsSplitWs c) ws =
      (List.range ((jsSplitWs c).length - ws.toNat)).map
        (fun i => jsJoin " " (((jsSplitWs c).drop i).take ws.toNat)) ∧
    (((jsSplitWs c).length : Int) ≤ ws →
      ∀ t u s cS hd,
        extractKeyPhrases
          [{ title := t, url := u, snippet := s, content := some c,
             codeSnippets := cS, headings := hd }] ws = []) := by
  constructor
  · exact windowPhrases_pos _ ws hws
  · intro hle t u s cS hd
    rw [extractKeyPhrases, List.foldl_cons, List.foldl_nil]
    rw [show resultStep ws []
        { title := t, url := u, snippet := s, content := some c,
          codeSnippets := cS, headings := hd } = [] by
      simp [resultStep, hc, windowPhrases_ge_len _ ws hle]]
    rfl

/-- Witness for C4: instantiated at content `"aa bb cc"` and window size 2. -/
theorem C4_window_positions_witness :
    (0 : Int) < 2 ∧ ("aa bb cc" : String) ≠ "" ∧
      (windowPhrases (jsSplitWs "aa bb cc") 2 =
        (List.range ((jsSplitWs "aa bb cc").length - (2 : Int).toNat)).map
          (fun i => jsJoin " " (((jsSplitWs "aa bb cc").drop i).take (2 : Int).toNat)) ∧
       (((jsSplitWs "aa bb cc").length : Int) ≤ 2 →
        ∀ t u s cS hd,
          extractKeyPhrases
            [{ title := t, url := u, snippet := s, content := some "aa bb cc",
               codeSnippets := cS, headings := hd }] 2 = [])) :=
  ⟨by decide, by decide, C4_window_positions "aa bb cc" 2 (by decide) (by decide)⟩

/-- C8: the returned key phrases number at most 5, are pairwise distinct,
each has length strictly between 30 and 150, and they form a subsequence of
the filtered candidate-phrase stream in discovery order across results. -/
theorem C8_keyphrase_invariants (rs : List WebSearchResult) (ws : Int) :
    (extractKeyPhrases rs ws).length ≤ 5 ∧
    (extractKeyPhrases rs ws).Nodup ∧
    (∀ p ∈ extractKeyPhrases rs ws, 30 < p.length ∧ p.length < 150) ∧
    List.Sublist (extractKeyPhrases rs ws) (phraseStream rs ws) := by
  obtain ⟨t, ht1, ht2, ht3⟩ := foldl_resultStep_spec ws rs [] (by simp)
  have he : extractKeyPhrases rs ws = t.take 5 := by
    rw [extractKeyPhrases, ht1]
    simp
  rw [he]
  refine ⟨?_, ?_, ?_, ?_⟩
  · simp
  · exact List.Nodup.sublist (List.take_sublist 5 t) (by simpa using ht2)
  · intro p hp
    have hmem : p ∈ phraseStream rs ws :=
      ht3.subset (List.mem_of_mem_take hp)
    have hok := phraseOk_of_mem_phraseStream ws rs p hmem
    rw [phraseOk] at hok
    simpa using hok
  · exact (List.take_sublist 5 t).trans ht3

/-- Witness for C8: instantiated at one result with real content and
window size 3. -/
theorem C8_keyphrase_invariants_witness :
    (extractKeyPhrases [sampleResult (some negWindowContent) none] 3).length ≤ 5 ∧
    (extractKeyPhrases [sampleResult (some negWindowContent) none] 3).Nodup ∧
    (∀ p ∈ extractKeyPhrases [sampleResult (some negWindowContent) none] 3,
      30 < p.length ∧ p.length < 150) ∧
    List.Sublist (extractKeyPhrases [sampleResult (some negWindowContent) none] 3)
      (phraseStream [sampleResult (some negWindowContent) none] 3) :=
  C8_keyphrase_invariants [sampleResult (some negWindowContent) none] 3

/-- C10 counterexample: at `windowSize = -1` (which is ≤ 0) the claim says
the empty list is returned, but `slice(i, i - 1)` with a negative end index
selects from the end of the array: at `i = 0` it yields the first four
words, whose 43-character join passes the length filter. -/
theorem C10_negative_window_cex :
    extractKeyPhrases [sampleResult (some negWindowContent) none] (-1) ≠ [] := by
  rw [show extractKeyPhrases [sampleResult (some negWindowContent) none] (-1) =
      ["aaaaaaaaaa bbbbbbbbbb cccccccccc dddddddddd"] by decide]
  simp

/-- C10 (amended): at `windowSize = 0` every examined window is empty, its
join fails the length filter, and `extractKeyPhrases` terminates with the
empty list; for negative `windowSize` the function still terminates but may
return phrases, because a negative slice end selects words from the end of
the token array. -/
theorem C10_zero_window_empty (rs : List WebSearchResult) :
    extractKeyPhrases rs 0 = [] := by
  rw [extractKeyPhrases]
  have h : rs.foldl (resultStep 0) [] = [] := by
    induction rs with
    | nil => rfl
    | cons r rs ih => rw [List.foldl_cons, resultStep_zero]; exact ih
  rw [h]
  rfl

/-- C5 counterexample: a result whose headings sequence is the non-empty
list `[""]` joins to the empty string, which is falsy, so
`generateSearchSummary` returns the literal fallback even though an input
result has a non-empty headings sequence — refuting the claimed "if and
only if". -/
theorem C5_empty_heading_fallback_cex :
    generateSearchSummary [sampleResult none (some [""])] =
        "No structured summary available" ∧
      hasHeadings (sampleResult none (some [""])) = true := by
  exact ⟨by decide, by decide⟩

/-- C5 (amended): provided every heading string of every result is
non-empty (as the extraction engine's `.filter(Boolean)` guarantees for
pipeline-produced results), `generateSearchSummary` returns the
newline-join of the per-result `" > "`-joined headings (a non-empty
string) when some result has a non-empty headings sequence, and returns
the literal fallback string when no result does. -/
theorem C5_summary_fallback (rs : List WebSearchResult)
    (hne : ∀ r ∈ rs, ∀ h ∈ r.headings.getD [], h ≠ "") :
    ((∃ r ∈ rs, hasHeadings r = true) →
      generateSearchSummary rs =
        jsJoin "\n" ((rs.filter hasHeadings).map
          (fun r => jsJoin " > " (r.headings.getD []))) ∧
      generateSearchSummary rs ≠ "") ∧
    ((∀ r ∈ rs, hasHeadings r = false) →
      generateSearchSummary rs = "No structured summary available") := by
  constructor
  · rintro ⟨r0, hr0, hh0⟩
    have hr0f : r0 ∈ rs.filter hasHeadings := List.mem_filter.mpr ⟨hr0, hh0⟩
    have hj0 : jsJoin " > " (r0.headings.getD []) ∈
        (rs.filter hasHeadings).map (fun r => jsJoin " > " (r.headings.getD [])) :=
      List.mem_map_of_mem _ hr0f
    obtain ⟨hs0, hx, hlen⟩ := (hasHeadings_iff r0).mp hh0
    have hpos : 0 < (jsJoin " > " (r0.headings.getD [])).length := by
      cases hs0 with
      | nil => simp at hlen
      | cons h0 rest =>
        have hmemh : h0 ∈ r0.headings.getD [] := by
          rw [hx]
          exact List.mem_cons_self h0 rest
        have hne0 : h0 ≠ "" := hne r0 hr0 h0 hmemh
        have hup := jsJoin_length_ge_of_mem " > " h0 (r0.headings.getD []) hmemh
        have hl0 := length_pos_of_ne_empty h0 hne0
        omega
    have hsum : 0 < (jsJoin "\n" ((rs.filter hasHeadings).map
        (fun r => jsJoin " > " (r.headings.getD [])))).length := by
      have := jsJoin_length_ge_of_mem "\n" _ _ hj0
      omega
    have hnz := ne_empty_of_length_pos _ hsum
    constructor
    · simp only [generateSearchSummary]
      rw [if_neg hnz]
    · simp only [generateSearchSummary]
      rw [if_neg hnz]
      exact hnz
  · intro hnone
    have hfil : rs.filter hasHeadings = [] := by
      apply List.filter_eq_nil_iff.mpr
      intro r hr
      simp [hnone r hr]
    simp [generateSearchSummary, hfil, jsJoin]

/-- Witness for C5: instantiated at one result with headings
`["Alpha", "Beta"]`. -/
theorem C5_summary_fallback_witness :
    (∀ r ∈ [headedResult], ∀ h ∈ r.headings.getD [], h ≠ "") ∧
      (generateSearchSummary [headedResult] =
        jsJoin "\n" (([headedResult].filter hasHeadings).map
          (fun r => jsJoin " > " (r.headings.getD []))) ∧
       generateSearchSummary [headedResult] ≠ "") :=
  ⟨by decide, (C5_summary_fallback [headedResult] (by decide)).1
    ⟨headedResult, by decide, by decide⟩⟩

/-- C9: parsing the JSON artifact of any completed run yields exactly the
in-memory `ProcessedResults` value that was serialized — field omission of
absent optional fields (`domain`, `content`, `codeSnippets`, `headings`)
round-trips losslessly. -/
theorem C9_artifact_roundtrip (inp : RunInput) :
    decodeProcessed (encodeProcessed (runArtifact inp)) =
      some (runArtifact inp) := by
  generalize runArtifact inp = p
  rcases p with ⟨q, d, rs, kp, ss, ts⟩
  rcases d with _ | d <;>
    simp [encodeProcessed, decodeProcessed, lookupField, decodeStr,
      decodeOptStrField, decodeStrList, decodeList_decodeStr,
      decodeList_decodeResult]

/-- C1 counterexample: with approval declined, the invocation has already
performed a filesystem write — the results directory is created (line 93)
before the approval gate is consulted (line 107), so the trace of a
declined run contains a write. -/
theorem C1_declined_write_cex :
    (webSearchRun declinedInput).any isFsWrite = true := by decide

/-- C1 (amended): if the approval gate declines (on a valid query), the
invocation terminates immediately after having created the output
directory — its whole effect trace is that single `mkdir`: no browser is
launched, no network call is made, no artifact file is written, and no
result is pushed; but the directory-creation side effect has already
happened. -/
theorem C1_declined_only_mkdir (inp : RunInput) (hq : inp.query ≠ "")
    (ha : inp.approved = false) :
    webSearchRun inp = [Effect.mkdirDir (resultsDirOf inp)] := by
  simp [webSearchRun, hq, ha]

/-- Witness for C1 (amended): the baseline declined run. -/
theorem C1_declined_only_mkdir_witness :
    declinedInput.query ≠ "" ∧ declinedInput.approved = false ∧
      webSearchRun declinedInput =
        [Effect.mkdirDir (resultsDirOf declinedInput)] :=
  ⟨by decide, rfl, C1_declined_only_mkdir declinedInput (by decide) rfl⟩

/-- C3 counterexample: a run with one surviving candidate whose detail
visit fails opens one content page and closes none — the `catch` branch
records the partial result without closing the page, so the page outlives
its extraction step (until the browser itself is torn down). -/
theorem C3_unclosed_page_cex :
    countOpens (webSearchRun failDetailInput) = 1 ∧
      countCloses (webSearchRun failDetailInput) = 0 := by
  exact ⟨by decide, by decide⟩

/-- C3 (amended): the top-level browser, once launched, is closed on every
exit path; but a content page is closed at its extraction step only when
the detail visit succeeds — on a completed run the number of page opens is
the number of surviving candidates examined while the number of closes is
the number of those whose detail visit succeeded, so a failed candidate's
page stays open until the final browser teardown. -/
theorem C3_page_close_accounting (inp : RunInput) :
    (Effect.browserLaunch ∈ webSearchRun inp →
      Effect.closeBrowser ∈ webSearchRun inp) ∧
    (inp.query ≠ "" → inp.approved = true → inp.launchOk = true →
      inp.searchNavOk = true →
      countOpens (webSearchRun inp) =
        ((inp.candidates.take (jsMin inp.candidates.length inp.maxResults)).filter
          survives).length ∧
      countCloses (webSearchRun inp) =
        ((inp.candidates.take (jsMin inp.candidates.length inp.maxResults)).filter
          (fun c => survives c && detailOk c)).length) := by
  constructor
  · intro hmem
    by_cases hq : inp.query = ""
    · simp [webSearchRun, hq] at hmem
    · cases ha : inp.approved with
      | false => simp [webSearchRun, hq, ha] at hmem
      | true =>
        cases hl : inp.launchOk with
        | false => simp [webSearchRun, hq, ha, hl] at hmem
        | true => simp [webSearchRun, hq, ha, hl]
  · intro hq ha hl hn
    rw [webSearchRun_happy inp hq ha hl hn]
    constructor
    · rw [countOpens, List.countP_append, List.countP_append,
        countP_flatten_candidates _ survives countOpens_candidate]
      simp [List.countP_cons, List.countP_nil]
    · rw [countCloses, List.countP_append, List.countP_append,
        countP_flatten_candidates _ (fun c => survives c && detailOk c)
          countCloses_candidate]
      simp [List.countP_cons, List.countP_nil]

/-- Witness for C3 (amended): the run with one failing surviving
candidate. -/
theorem C3_page_close_accounting_witness :
    failDetailInput.query ≠ "" ∧
      (countOpens (webSearchRun failDetailInput) =
        ((failDetailInput.candidates.take
            (jsMin failDetailInput.candidates.length
              failDetailInput.maxResults)).filter survives).length ∧
       countCloses (webSearchRun failDetailInput) =
        ((failDetailInput.candidates.take
            (jsMin failDetailInput.candidates.length
              failDetailInput.maxResults)).filter
          (fun c => survives c && detailOk c)).length) :=
  ⟨by decide,
    (C3_page_close_accounting failDetailInput).2 (by decide) rfl rfl rfl⟩

/-- C6 counterexample: a completed run whose sole surviving candidate has
an empty listing title text (`el.textContent || ""` yields `""`, and the
guard only checks element existence) produces a results entry with an
empty title. -/
theorem C6_empty_title_cex :
    Effect.pushResult ∈ webSearchRun emptyTitleInput ∧
      (runArtifact emptyTitleInput).results.map WebSearchResult.title = [""] := by
  exact ⟨by decide, by decide⟩

/-- C6 (amended): on every completed run the results list has length at
most `maxResults`; and provided every present listing element's title
text, href and snippet text are non-empty, every assembled entry has
non-empty title, url and snippet (the guard checks element existence, not
text non-emptiness, so the proviso is necessary). -/
theorem C6_results_bounds (inp : RunInput) (_hq : inp.query ≠ "")
    (_ha : inp.approved = true) (_hl : inp.launchOk = true)
    (_hn : inp.searchNavOk = true) :
    (runArtifact inp).results.length ≤ inp.maxResults.toNat ∧
    ((∀ c ∈ inp.candidates, candTextsNonempty c) →
      ∀ r ∈ (runArtifact inp).results,
        r.title ≠ "" ∧ r.url ≠ "" ∧ r.snippet ≠ "") := by
  have hres : (runArtifact inp).results =
      (inp.candidates.take (jsMin inp.candidates.length inp.maxResults)).filterMap
        candidateResult := by
    show collectResults inp.candidates inp.maxResults = _
    rw [collectResults, searchLoop_eq]
  constructor
  · rw [hres]
    calc ((inp.candidates.take (jsMin inp.candidates.length inp.maxResults)).filterMap
            candidateResult).length
        ≤ (inp.candidates.take (jsMin inp.candidates.length inp.maxResults)).length :=
          List.length_filterMap_le _ _
      _ ≤ jsMin inp.candidates.length inp.maxResults := by
          rw [List.length_take]
          exact min_le_left _ _
      _ ≤ inp.maxResults.toNat := Int.toNat_le_toNat (min_le_right _ _)
  · intro hall r hr
    rw [hres] at hr
    obtain ⟨c, hcmem, hcr⟩ := List.mem_filterMap.mp hr
    have hcin : c ∈ inp.candidates := List.take_subset _ _ hcmem
    have hct := hall c hcin
    rcases c with ⟨cte, cse, cd⟩
    match cte, cse with
    | none, x => simp [candidateResult] at hcr
    | some te, none => simp [candidateResult] at hcr
    | some te, some se =>
      simp only [candidateResult, Option.some.injEq] at hcr
      obtain ⟨htne, hune⟩ := hct.1 te rfl
      have hsne := hct.2 se rfl
      cases cd <;> (rw [← hcr]; simp [mkResult]; exact ⟨htne, hune, hsne⟩)

/-- Witness for C6 (amended): the run with one fully successful
candidate. -/
theorem C6_results_bounds_witness :
    happyInput.query ≠ "" ∧
      ((runArtifact happyInput).results.length ≤ happyInput.maxResults.toNat ∧
       ((∀ c ∈ happyInput.candidates, candTextsNonempty c) →
         ∀ r ∈ (runArtifact happyInput).results,
           r.title ≠ "" ∧ r.url ≠ "" ∧ r.snippet ≠ "")) :=
  ⟨by decide, C6_results_bounds happyInput (by decide) rfl rfl rfl⟩

/-- C7: on a completed run, a surviving candidate (within the examined
prefix of the listing) whose detail visit fails still contributes a
results entry carrying only the listing title, url and snippet (with
content, codeSnippets and headings absent), and the run completes: the
artifact is written and the report is pushed. -/
theorem C7_soft_failure (inp : RunInput) (c : Candidate) (te : TitleElem)
    (se : SnippetElem) (hq : inp.query ≠ "") (ha : inp.approved = true)
    (hl : inp.launchOk = true) (hn : inp.searchNavOk = true)
    (hc : c ∈ inp.candidates.take (jsMin inp.candidates.length inp.maxResults))
    (hte : c.titleElem = some te) (hse : c.snippetElem = some se)
    (hd : c.detail = .fail) :
    ({ title := te.textContent, url := te.href, snippet := se.textContent,
       content := none, codeSnippets := none, headings := none } : WebSearchResult)
        ∈ (runArtifact inp).results ∧
    Effect.writeArtifact (artifactPath inp) (runArtifact inp) ∈ webSearchRun inp ∧
    Effect.pushResult ∈ webSearchRun inp := by
  refine ⟨?_, ?_, ?_⟩
  · have hres : (runArtifact inp).results =
        (inp.candidates.take (jsMin inp.candidates.length inp.maxResults)).filterMap
          candidateResult := by
      show collectResults inp.candidates inp.maxResults = _
      rw [collectResults, searchLoop_eq]
    rw [hres]
    apply List.mem_filterMap.mpr
    refine ⟨c, hc, ?_⟩
    rcases c with ⟨cte, cse, cd⟩
    simp only at hte hse hd
    subst hte hse hd
    rfl
  · rw [webSearchRun_happy inp hq ha hl hn]
    simp
  · rw [webSearchRun_happy inp hq ha hl hn]
    simp

/-- Witness for C7: the run whose single surviving candidate times out. -/
theorem C7_soft_failure_witness :
    failDetailInput.query ≠ "" ∧
      (({ title := "T", url := "https://a.example/page", snippet := "S",
          content := none, codeSnippets := none, headings := none } :
            WebSearchResult) ∈ (runArtifact failDetailInput).results ∧
       Effect.writeArtifact (artifactPath failDetailInput)
          (runArtifact failDetailInput) ∈ webSearchRun failDetailInput ∧
       Effect.pushResult ∈ webSearchRun failDetailInput) :=
  ⟨by decide,
    C7_soft_failure failDetailInput failCandidate ⟨"T", "https://a.example/page"⟩
      ⟨"S"⟩ (by decide) rfl rfl rfl (by decide) rfl rfl rfl⟩

/-- Sanity check of the whitespace-split model against JavaScript:
`"a b"` splits to two tokens, boundary whitespace yields empty tokens, and
the empty string splits to `[""]`. -/
theorem jsSplitWs_sanity :
    jsSplitWs "a b" = ["a", "b"] ∧ jsSplitWs " a " = ["", "a", ""] ∧
      jsSplitWs "" = [""] := by
  exact ⟨by decide, by decide, by decide⟩
